import Mathlib

/-!
Verification development for the rc-telemetrie onboard runtime
(single source file src/main.rs).

The source is an async Rust program; we embed the code paths the
properties are about as pure Lean functions:

* the control task (feature real-actuators, src/main.rs lines 242-316)
  becomes a fuel-indexed interpreter over an environment oracle that
  answers the cancellation checks, the subscription-open attempts and
  the bounded waits for stream events, producing the ordered trace of
  observable effects (actuator invocations and log lines);
* each telemetry pipeline loop body (GPS, IMU, Analog, Magnetometer)
  becomes a per-iteration function from the poll result and the
  database-append result to the iteration output trace;
* the initialisation paths (init_i2c, Database::new, Motor::new /
  Steering::new) become functions into an outcome type that
  distinguishes a process panic from a mere control-task return;
* the supervisor signal handler (lines 370-393) becomes a function from
  the received signal kind to its shutdown action trace.

Machine floats (f64 steer/speed values) carry no arithmetic in the
source — they are only passed through — so they are embedded as Int (an opaque value domain with decidable equality; only the literal 0 is ever produced by the code itself, at the dead-man set_speed(0.0) call).
-/

namespace RcTelemetrie

/-- Dead-man timeout constant, src/main.rs line 33: const DEAD_TIMEOUT: u64 = 500. -/
def DEAD_TIMEOUT : Nat := 500

/-- surrealdb::Action, as matched at src/main.rs line 280. -/
inductive Action where
  | insert
  | update
  | delete
deriving DecidableEq, Repr

/-- Result of one bounded wait timeout(DEAD_TIMEOUT, s.next()).await
(src/main.rs lines 269-305): Err(Elapsed) is timeout, Ok(None) is
streamNone, Ok(Some(Err e)) is eventErr, Ok(Some(Ok data)) is an event
carrying the action and the command data; stOk and spOk record whether
the hardware accepts the set_steer and set_speed calls that the event
will trigger (the Result values at lines 284-290). -/
inductive WaitResult where
  | timeout
  | streamNone
  | eventErr
  | event (a : Action) (steer speed : Int) (stOk spOk : Bool)
deriving DecidableEq, Repr

/-- Environment oracle for the control task: answers to the k-th
token.is_cancelled() check, the k-th db.live_control() attempt and the
k-th bounded wait. -/
structure Env where
  cancelAt : Nat → Bool
  subAt : Nat → Bool
  waitAt : Nat → WaitResult

/-- Observable effects of the control task, in program order. -/
inductive Out where
  | setSteer (v : Int)
  | setSpeed (v : Int)
  | safeStopMotor
  | safeStopSteer
  | logSubErr
  | logStale
  | logEventErr
  | logSteerErr
  | logSpeedErr
deriving DecidableEq, Repr

/-- Which of the two nested while loops the control task is in:
outer is the loop opening the live subscription (line 263), inner is
the loop performing the bounded waits (line 268). -/
inductive Phase where
  | outer
  | inner
deriving DecidableEq, Repr

/-- Effects of one inner-loop iteration for a given wait outcome,
src/main.rs lines 271-305: a timeout prints the staleness message and
invokes motor.set_speed(0.0); Ok(None) does nothing (continue); an
event decode error is logged; an Update event invokes
steer.set_steer then motor.set_speed, logging each call that the
hardware rejects; any non-Update event is discarded. -/
def waitOuts : WaitResult → List Out
  | .timeout => [.logStale, .setSpeed 0]
  | .streamNone => []
  | .eventErr => [.logEventErr]
  | .event a st sp stOk spOk =>
      if a = Action.update then
        .setSteer st :: ((if stOk then [] else [.logSteerErr])
          ++ .setSpeed sp :: (if spOk then [] else [.logSpeedErr]))
      else []

/-- The control task of the real-actuators build, src/main.rs lines
263-316, as a fuel-indexed interpreter.  Arguments after the phase:
fuel, then the indices of the next cancellation check, subscription
attempt and bounded wait.  Returns the effect trace and whether the
task ran to completion (reached the safe_stop calls at lines 314-315)
within the given fuel. -/
def ctrlRun (env : Env) : Phase → Nat → Nat → Nat → Nat → List Out × Bool
  | _, 0, _, _, _ => ([], false)
  | .outer, f + 1, c, s, w =>
      if env.cancelAt c then
        ([.safeStopMotor, .safeStopSteer], true)
      else if env.subAt s then
        ctrlRun env .inner f (c + 1) (s + 1) w
      else
        let r := ctrlRun env .outer f (c + 1) (s + 1) w
        (.logSubErr :: r.1, r.2)
  | .inner, f + 1, c, s, w =>
      if env.cancelAt c then
        ctrlRun env .outer f (c + 1) s w
      else
        let r := ctrlRun env .inner f (c + 1) s (w + 1)
        (waitOuts (env.waitAt w) ++ r.1, r.2)

/-! ## Telemetry pipelines -/

/-- Payload of a ParsedMessage::Gga fix (external nmea_parser crate);
the fields are opaque to main.rs, which forwards the value whole. -/
structure GgaData where
  latitude : Option Int
  longitude : Option Int
  satelliteCount : Option Nat
deriving DecidableEq, Repr

/-- Payload of a ParsedMessage::Vtg velocity message (external crate). -/
structure VtgData where
  cogTrue : Option Int
  sogKnots : Option Int
deriving DecidableEq, Repr

/-- IMU reading: orientation angles and temperature. -/
structure ImuData where
  angles : Int × Int × Int
  temp : Int
deriving DecidableEq, Repr

/-- Analog reading: battery voltage. -/
structure AnalogData where
  battery : Int
deriving DecidableEq, Repr

/-- Magnetometer reading: heading and raw vector. -/
structure MagData where
  heading : Int
  raw : Int × Int × Int
deriving DecidableEq, Repr

/-- The NMEA message kinds delivered by the GPS reader.  main.rs
matches only Gga and Vtg and discards every other kind through the
wildcard arm at line 96; the remaining parsed kinds are represented by
dataless constructors since their payloads are never inspected. -/
inductive Nmea where
  | gga (g : GgaData)
  | vtg (v : VtgData)
  | rmc
  | gsa
  | gsv
  | gll
  | otherMsg
deriving DecidableEq, Repr

/-- Observable effects of one telemetry-pipeline iteration. -/
inductive PipeOut where
  | storeGga (g : GgaData)
  | storeVtg (v : VtgData)
  | storeImu (d : ImuData)
  | storeAnalog (d : AnalogData)
  | storeMag (d : MagData)
  | logDbErr
  | sleepMs (ms : Nat)
deriving DecidableEq, Repr

/-- One iteration of the GPS task loop, src/main.rs lines 76-101:
on a Gga fix call db.send_gps_gga and log on failure, on a Vtg message
call db.send_gps_vtg and log on failure, otherwise nothing; no pacing
delay anywhere in the loop.  The Bool is the append result. -/
def gpsIter : Option Nmea → Bool → List PipeOut
  | none, _ => []
  | some (.gga g), ok => .storeGga g :: (if ok then [] else [.logDbErr])
  | some (.vtg v), ok => .storeVtg v :: (if ok then [] else [.logDbErr])
  | some _, _ => []

/-- One iteration of the IMU task loop, src/main.rs lines 117-126:
if the poll yields a reading, call db.send_imu and log on failure;
then, in every iteration, sleep 50 ms. -/
def imuIter : Option ImuData → Bool → List PipeOut
  | none, _ => [.sleepMs 50]
  | some d, ok =>
      .storeImu d :: ((if ok then [] else [.logDbErr]) ++ [.sleepMs 50])

/-- One iteration of the Analog task loop, src/main.rs lines 143-154:
the 500 ms sleep sits inside the if let Some(data) branch, so an
iteration whose poll returns None performs no store write and no
sleep; a Some(Err) poll silently skips the write but still sleeps;
a Some(Ok) poll writes (logging on failure) and sleeps. -/
def analogIter : Option (Except Unit AnalogData) → Bool → List PipeOut
  | none, _ => []
  | some (.error _), _ => [.sleepMs 500]
  | some (.ok d), ok =>
      .storeAnalog d :: ((if ok then [] else [.logDbErr]) ++ [.sleepMs 500])

/-- One iteration of the Magnetometer task loop, src/main.rs lines
170-184: a Some(Ok) poll writes (logging on failure); a Some(Err) poll
is silently discarded; the 300 ms sleep is outside the if and happens
in every iteration. -/
def magIter : Option (Except Unit MagData) → Bool → List PipeOut
  | none, _ => [.sleepMs 300]
  | some (.error _), _ => [.sleepMs 300]
  | some (.ok d), ok =>
      .storeMag d :: ((if ok then [] else [.logDbErr]) ++ [.sleepMs 300])

/-- A pipeline run: the while !token.is_cancelled() loop, with one
input (poll result, append result) per iteration executed before
cancellation is observed.  None of the four loop bodies contains a
break or return, so every iteration is followed by the next. -/
def pipeRun {α : Type} (iter : α → Bool → List PipeOut) : List (α × Bool) → List PipeOut
  | [] => []
  | (a, ok) :: rest => iter a ok ++ pipeRun iter rest

/-! ## Initialisation outcomes -/

/-- Diagnostic identity of an initialisation failure (the println /
panic message prefix printed by main.rs). -/
inductive InitDiag where
  | i2cBusErr
  | dbConnErr
  | motorInitErr
  | steerInitErr
deriving DecidableEq, Repr

/-- Outcome of an initialisation step: proceed normally, abort the
whole process (panic!), or terminate only the control task (the
early return inside the spawned closure). -/
inductive InitOutcome where
  | proceed
  | processPanic (d : InitDiag)
  | controlTaskExit (d : InitDiag)
deriving DecidableEq, Repr

/-- init_i2c of the real-sensors build, src/main.rs lines 36-46:
a bus error panics the process with the I2C diagnostic. -/
def init_i2c (busOk : Bool) : InitOutcome :=
  if busOk then .proceed else .processPanic .i2cBusErr

/-- The Database::new match in main, src/main.rs lines 60-68:
a connection error panics the process with the DB diagnostic. -/
def dbConnect (connOk : Bool) : InitOutcome :=
  if connOk then .proceed else .processPanic .dbConnErr

/-- The actuator initialisation at the top of the control task,
src/main.rs lines 248-261: a Motor::new error logs and returns from
the spawned task; otherwise a Steering::new error logs and returns
from the spawned task; otherwise the control loop proceeds.  The
return terminates only the control task, not the process. -/
def controlInit (motorOk steerOk : Bool) : InitOutcome :=
  if !motorOk then .controlTaskExit .motorInitErr
  else if !steerOk then .controlTaskExit .steerInitErr
  else .proceed

/-! ## Supervisor signal handling -/

/-- The two interrupt sources selected at src/main.rs lines 373-382. -/
inductive OsSignal where
  | sigint
  | ctrlC
deriving DecidableEq, Repr

/-- Actions main can take after the select completes. awaitControlTask
is never emitted by the source: main returns right after cancelling. -/
inductive SupOut where
  | printInterruptMsg
  | printCtrlCMsg
  | cancelRoot
  | awaitControlTask
deriving DecidableEq, Repr

/-- The tail of main on unix, src/main.rs lines 370-383 and then the
end of main at line 394: whichever interrupt arrives, print its
message, cancel the root token, and return from main with no await of
any spawned task. -/
def supervisorShutdown : OsSignal → List SupOut
  | .sigint => [.printInterruptMsg, .cancelRoot]
  | .ctrlC => [.printCtrlCMsg, .cancelRoot]

/-- Modelled from the spec: the shutdown sequence section 6 claims for
both interrupt kinds — cancel root, await safe-stop completion, exit.
Stated only for comparison with supervisorShutdown, which is the
embedding of the source. -/
def specShutdownSequence : OsSignal → List SupOut
  | _ => [.cancelRoot, .awaitControlTask]

end RcTelemetrie

namespace RcTelemetrie

/-! ## Structural lemmas about the control task -/

/-- The safe_stop invocations appear in no inner-loop iteration chunk:
they exist only at lines 314-315, after the outer loop. -/
lemma safeStop_notin_waitOuts (r : WaitResult) :
    Out.safeStopMotor ∉ waitOuts r ∧ Out.safeStopSteer ∉ waitOuts r := by
  cases r with
  | timeout => simp [waitOuts]
  | streamNone => simp [waitOuts]
  | eventErr => simp [waitOuts]
  | event a st sp stOk spOk =>
      cases a <;> cases stOk <;> cases spOk <;> simp [waitOuts]

/-- While the token is never cancelled and a subscription is open, the
inner loop consumes one bounded wait per unit of fuel and its trace is
the concatenation, in order, of the per-iteration chunks. -/
lemma ctrlRun_inner_no_cancel (env : Env) (hc : ∀ k, env.cancelAt k = false) :
    ∀ f c s w, ctrlRun env Phase.inner f c s w
      = (((List.range f).map (fun j => waitOuts (env.waitAt (w + j)))).flatten, false) := by
  intro f
  induction f with
  | zero =>
      intro c s w
      simp [ctrlRun]
  | succ n ih =>
      intro c s w
      have harith : (fun j => waitOuts (env.waitAt (w + 1 + j)))
          = (fun j => waitOuts (env.waitAt (w + (j + 1)))) := by
        funext j
        rw [Nat.add_assoc, Nat.add_comm 1 j]
      simp [ctrlRun, hc, ih (c + 1) s (w + 1), List.range_succ_eq_map,
        List.map_map, Function.comp_def, harith]

/-- Once the cancellation token reads true from check index k0 on, the
control task completes within k0 - c + 2 units of fuel, from either
phase and from any oracle indices. -/
lemma ctrlRun_completes (env : Env) (k0 : Nat)
    (hc : ∀ k, k0 ≤ k → env.cancelAt k = true) :
    ∀ f ph c s w, k0 - c + 2 ≤ f → (ctrlRun env ph f c s w).2 = true := by
  intro f
  induction f with
  | zero =>
      intro ph c s w h
      omega
  | succ n ih =>
      intro ph c s w h
      cases ph with
      | outer =>
          by_cases hcc : env.cancelAt c = true
          · simp [ctrlRun, hcc]
          · have hlt : c < k0 := by
              by_contra hge
              exact hcc (hc c (by omega))
            by_cases hsb : env.subAt s = true
            · simpa [ctrlRun, hcc, hsb] using ih Phase.inner (c + 1) (s + 1) w (by omega)
            · simpa [ctrlRun, hcc, hsb] using ih Phase.outer (c + 1) (s + 1) w (by omega)
      | inner =>
          by_cases hcc : env.cancelAt c = true
          · by_cases hk : c < k0
            · simpa [ctrlRun, hcc] using ih Phase.outer (c + 1) s w (by omega)
            · have hn : 1 ≤ n := by omega
              obtain ⟨m, rfl⟩ : ∃ m, n = m + 1 := ⟨n - 1, by omega⟩
              have hcc2 : env.cancelAt (c + 1) = true := hc (c + 1) (by omega)
              simp [ctrlRun, hcc, hcc2]
          · have hlt : c < k0 := by
              by_contra hge
              exact hcc (hc c (by omega))
            simpa [ctrlRun, hcc] using ih Phase.inner (c + 1) s (w + 1) (by omega)

/-- Trace shape: a completed run ends with exactly the two safe_stop
invocations, motor first, and contains no safe_stop before them; an
incomplete run contains no safe_stop at all. -/
lemma ctrlRun_shape (env : Env) :
    ∀ f ph c s w,
      ((ctrlRun env ph f c s w).2 = true →
        ∃ p, (ctrlRun env ph f c s w).1 = p ++ [Out.safeStopMotor, Out.safeStopSteer]
          ∧ Out.safeStopMotor ∉ p ∧ Out.safeStopSteer ∉ p) ∧
      ((ctrlRun env ph f c s w).2 = false →
        Out.safeStopMotor ∉ (ctrlRun env ph f c s w).1
          ∧ Out.safeStopSteer ∉ (ctrlRun env ph f c s w).1) := by
  intro f
  induction f with
  | zero =>
      intro ph c s w
      simp [ctrlRun]
  | succ n ih =>
      intro ph c s w
      cases ph with
      | outer =>
          by_cases hcc : env.cancelAt c = true
          · refine ⟨fun _ => ⟨[], by simp [ctrlRun, hcc]⟩, fun hf => ?_⟩
            simp [ctrlRun, hcc] at hf
          · by_cases hsb : env.subAt s = true
            · simpa [ctrlRun, hcc, hsb] using ih Phase.inner (c + 1) (s + 1) w
            · have hrec := ih Phase.outer (c + 1) (s + 1) w
              constructor
              · intro hd
                simp only [ctrlRun, hcc, hsb, if_false, Bool.false_eq_true] at hd ⊢
                obtain ⟨p, hp, hm, hs2⟩ := hrec.1 hd
                exact ⟨Out.logSubErr :: p, by simp [hp], by simp [hm], by simp [hs2]⟩
              · intro hd
                simp only [ctrlRun, hcc, hsb, if_false, Bool.false_eq_true] at hd ⊢
                have := hrec.2 hd
                simp [this.1, this.2]
      | inner =>
          by_cases hcc : env.cancelAt c = true
          · simpa [ctrlRun, hcc] using ih Phase.outer (c + 1) s w
          · have hrec := ih Phase.inner (c + 1) s (w + 1)
            have hw := safeStop_notin_waitOuts (env.waitAt w)
            constructor
            · intro hd
              simp only [ctrlRun, hcc, if_false, Bool.false_eq_true] at hd ⊢
              obtain ⟨p, hp, hm, hs2⟩ := hrec.1 hd
              refine ⟨waitOuts (env.waitAt w) ++ p, by simp [hp], ?_, ?_⟩
              · simp [hw.1, hm]
              · simp [hw.2, hs2]
            · intro hd
              simp only [ctrlRun, hcc, if_false, Bool.false_eq_true] at hd ⊢
              have := hrec.2 hd
              simp [hw.1, hw.2, this.1, this.2]

end RcTelemetrie

namespace RcTelemetrie

/-- A set_steer invocation in an iteration chunk can only come from an
Update event carrying that steer value (src/main.rs lines 280-286). -/
lemma setSteer_mem_waitOuts {r : WaitResult} {st : Int}
    (h : Out.setSteer st ∈ waitOuts r) :
    ∃ sp stOk spOk, r = WaitResult.event Action.update st sp stOk spOk := by
  cases r with
  | timeout => simp [waitOuts] at h
  | streamNone => simp [waitOuts] at h
  | eventErr => simp [waitOuts] at h
  | event a st2 sp stOk spOk =>
      cases a with
      | insert => simp [waitOuts] at h
      | delete => simp [waitOuts] at h
      | update =>
          cases stOk with
          | true =>
              cases spOk with
              | true =>
                  simp [waitOuts] at h
                  exact ⟨sp, true, true, by rw [h]⟩
              | false =>
                  simp [waitOuts] at h
                  exact ⟨sp, true, false, by rw [h]⟩
          | false =>
              cases spOk with
              | true =>
                  simp [waitOuts] at h
                  exact ⟨sp, false, true, by rw [h]⟩
              | false =>
                  simp [waitOuts] at h
                  exact ⟨sp, false, false, by rw [h]⟩

/-- A set_speed invocation in an iteration chunk is either the
dead-man set_speed(0) of the timeout branch (line 303) or comes from
an Update event carrying that speed value (line 288). -/
lemma setSpeed_mem_waitOuts {r : WaitResult} {sp : Int}
    (h : Out.setSpeed sp ∈ waitOuts r) :
    sp = 0 ∨ ∃ st stOk spOk, r = WaitResult.event Action.update st sp stOk spOk := by
  cases r with
  | timeout =>
      simp [waitOuts] at h
      exact Or.inl h
  | streamNone => simp [waitOuts] at h
  | eventErr => simp [waitOuts] at h
  | event a st sp2 stOk spOk =>
      cases a with
      | insert => simp [waitOuts] at h
      | delete => simp [waitOuts] at h
      | update =>
          cases stOk with
          | true =>
              cases spOk with
              | true =>
                  simp [waitOuts] at h
                  exact Or.inr ⟨st, true, true, by rw [h]⟩
              | false =>
                  simp [waitOuts] at h
                  exact Or.inr ⟨st, true, false, by rw [h]⟩
          | false =>
              cases spOk with
              | true =>
                  simp [waitOuts] at h
                  exact Or.inr ⟨st, false, true, by rw [h]⟩
              | false =>
                  simp [waitOuts] at h
                  exact Or.inr ⟨st, false, false, by rw [h]⟩

/-- Origin of every actuator invocation in a control-task trace:
set_steer only ever receives the steer field of an Update event, and
set_speed either the literal 0 of the dead-man branch or the speed
field of an Update event, whatever the environment does. -/
lemma ctrlRun_actuation_origin (env : Env) :
    ∀ f ph c s w,
      (∀ st, Out.setSteer st ∈ (ctrlRun env ph f c s w).1 →
        ∃ i sp stOk spOk, env.waitAt i = WaitResult.event Action.update st sp stOk spOk) ∧
      (∀ sp, Out.setSpeed sp ∈ (ctrlRun env ph f c s w).1 →
        sp = 0 ∨ ∃ i st stOk spOk,
          env.waitAt i = WaitResult.event Action.update st sp stOk spOk) := by
  intro f
  induction f with
  | zero =>
      intro ph c s w
      simp [ctrlRun]
  | succ n ih =>
      intro ph c s w
      cases ph with
      | outer =>
          by_cases hcc : env.cancelAt c = true
          · constructor
            · intro st hst
              simp [ctrlRun, hcc] at hst
            · intro sp hsp
              simp [ctrlRun, hcc] at hsp
          · by_cases hsb : env.subAt s = true
            · simpa [ctrlRun, hcc, hsb] using ih Phase.inner (c + 1) (s + 1) w
            · have hrec := ih Phase.outer (c + 1) (s + 1) w
              constructor
              · intro st hst
                simp [ctrlRun, hcc, hsb] at hst
                exact hrec.1 st hst
              · intro sp hsp
                simp [ctrlRun, hcc, hsb] at hsp
                exact hrec.2 sp hsp
      | inner =>
          by_cases hcc : env.cancelAt c = true
          · simpa [ctrlRun, hcc] using ih Phase.outer (c + 1) s w
          · have hrec := ih Phase.inner (c + 1) s (w + 1)
            constructor
            · intro st hst
              simp only [ctrlRun, hcc, if_false, Bool.false_eq_true, List.mem_append] at hst
              rcases hst with h | h
              · obtain ⟨sp, stOk, spOk, hr⟩ := setSteer_mem_waitOuts h
                exact ⟨w, sp, stOk, spOk, hr⟩
              · exact hrec.1 st h
            · intro sp hsp
              simp only [ctrlRun, hcc, if_false, Bool.false_eq_true, List.mem_append] at hsp
              rcases hsp with h | h
              · rcases setSpeed_mem_waitOuts h with h0 | ⟨st, stOk, spOk, hr⟩
                · exact Or.inl h0
                · exact Or.inr ⟨w, st, stOk, spOk, hr⟩
              · exact hrec.2 sp h

/-- During a subscription outage (every live_control attempt fails)
the outer loop performs no actuator command at all. -/
lemma ctrlRun_outage_no_actuation (env : Env) (hs : ∀ k, env.subAt k = false) :
    ∀ f c s w,
      (∀ v, Out.setSteer v ∉ (ctrlRun env Phase.outer f c s w).1) ∧
      (∀ v, Out.setSpeed v ∉ (ctrlRun env Phase.outer f c s w).1) := by
  intro f
  induction f with
  | zero =>
      intro c s w
      simp [ctrlRun]
  | succ n ih =>
      intro c s w
      by_cases hcc : env.cancelAt c = true
      · constructor
        · intro v
          simp [ctrlRun, hcc]
        · intro v
          simp [ctrlRun, hcc]
      · have hrec := ih (c + 1) (s + 1) w
        constructor
        · intro v
          simp [ctrlRun, hcc, hs, hrec.1 v]
        · intro v
          simp [ctrlRun, hcc, hs, hrec.2 v]

/-- During a subscription outage with no cancellation, every unit of
fuel produces exactly one logged failure and another retry. -/
lemma ctrlRun_outage_trace (env : Env) (hs : ∀ k, env.subAt k = false)
    (hc : ∀ k, env.cancelAt k = false) :
    ∀ f c s w, ctrlRun env Phase.outer f c s w = (List.replicate f Out.logSubErr, false) := by
  intro f
  induction f with
  | zero =>
      intro c s w
      simp [ctrlRun]
  | succ n ih =>
      intro c s w
      simp [ctrlRun, hc, hs, ih (c + 1) (s + 1) w, List.replicate_succ]

/-- pipeRun distributes over concatenation of the iteration inputs. -/
lemma pipeRun_append {α : Type} (iter : α → Bool → List PipeOut) :
    ∀ l1 l2, pipeRun iter (l1 ++ l2) = pipeRun iter l1 ++ pipeRun iter l2 := by
  intro l1 l2
  induction l1 with
  | nil => simp [pipeRun]
  | cons x rest ih =>
      obtain ⟨a, ok⟩ := x
      simp [pipeRun, ih]

end RcTelemetrie

namespace RcTelemetrie

/-! ## Witness environments -/

/-- Environment in which the token is never cancelled and every
bounded wait times out. -/
def envDeadman : Env :=
  { cancelAt := fun _ => false, subAt := fun _ => true,
    waitAt := fun _ => WaitResult.timeout }

/-- Environment in which the token is already cancelled. -/
def envCancelled : Env :=
  { cancelAt := fun _ => true, subAt := fun _ => true,
    waitAt := fun _ => WaitResult.timeout }

/-- Environment delivering an accepted Update event on every wait. -/
def envUpdate : Env :=
  { cancelAt := fun _ => false, subAt := fun _ => true,
    waitAt := fun _ => WaitResult.event Action.update 3 5 true true }

/-- Environment in which every live_control attempt fails. -/
def envOutage : Env :=
  { cancelAt := fun _ => false, subAt := fun _ => false,
    waitAt := fun _ => WaitResult.timeout }

/-! ## Claims -/

/-- Claim C1: in the real-actuators control loop, an inner-loop
iteration whose 500 ms bounded wait (DEAD_TIMEOUT) elapses with no
event invokes Motor.set_speed(0) and no set_steer, and the loop
re-enters the wait, so the trace up to and including that iteration
ends with the set_speed(0), and the output of every later iteration —
in particular any non-zero speed applied from a later Update event —
comes strictly after it. -/
theorem deadman_timeout_failsafe (env : Env) (i n c s : Nat)
    (hc : ∀ k, env.cancelAt k = false) (hi : i < n)
    (ht : env.waitAt i = WaitResult.timeout) :
    DEAD_TIMEOUT = 500 ∧
    waitOuts (env.waitAt i) = [Out.logStale, Out.setSpeed 0] ∧
    (∀ v, Out.setSteer v ∉ waitOuts (env.waitAt i)) ∧
    (ctrlRun env Phase.inner n c s 0).1
      = ((List.range (i + 1)).map (fun j => waitOuts (env.waitAt j))).flatten
        ++ ((List.range (n - (i + 1))).map
            (fun j => waitOuts (env.waitAt (i + 1 + j)))).flatten ∧
    (∃ q, ((List.range (i + 1)).map (fun j => waitOuts (env.waitAt j))).flatten
        = q ++ [Out.setSpeed 0]) ∧
    (∀ j st sp stOk spOk, i < j → j < n →
      env.waitAt j = WaitResult.event Action.update st sp stOk spOk →
      Out.setSpeed sp ∈ ((List.range (n - (i + 1))).map
          (fun j => waitOuts (env.waitAt (i + 1 + j)))).flatten) := by
  refine ⟨rfl, by rw [ht]; rfl, by rw [ht]; simp [waitOuts], ?_, ?_, ?_⟩
  · have hdec := ctrlRun_inner_no_cancel env hc n c s 0
    have hsplit : n = (i + 1) + (n - (i + 1)) := by omega
    rw [hdec]
    simp only [Nat.zero_add]
    conv_lhs => rw [hsplit]
    rw [List.range_add, List.map_append, List.flatten_append, List.map_map]
    simp [Function.comp_def]
  · refine ⟨((List.range i).map (fun j => waitOuts (env.waitAt j))).flatten
        ++ [Out.logStale], ?_⟩
    rw [List.range_succ, List.map_append, List.flatten_append]
    simp [ht, waitOuts]
  · intro j st sp stOk spOk hij hjn hj
    have hmem : Out.setSpeed sp ∈ waitOuts (env.waitAt j) := by
      rw [hj]
      cases stOk <;> cases spOk <;> simp [waitOuts]
    have hidx : j - (i + 1) ∈ List.range (n - (i + 1)) := by
      simp only [List.mem_range]
      omega
    refine List.mem_flatten.mpr
      ⟨waitOuts (env.waitAt (i + 1 + (j - (i + 1)))), ?_, ?_⟩
    · exact List.mem_map.mpr ⟨j - (i + 1), hidx, rfl⟩
    · have heq : i + 1 + (j - (i + 1)) = j := by omega
      rw [heq]
      exact hmem

/-- Witness for C1: in the all-timeouts environment with one unit of
fuel, the inner loop trace is exactly the staleness log followed by
set_speed(0). -/
theorem deadman_timeout_failsafe_witness :
    (ctrlRun envDeadman Phase.inner 1 0 0 0).1 = [Out.logStale, Out.setSpeed 0] := by
  have h := deadman_timeout_failsafe envDeadman 0 1 0 0 (fun k => rfl) (by omega) rfl
  have h4 := h.2.2.2.1
  simpa [envDeadman, waitOuts] using h4

/-- Claim C2: once the cancellation token reads true (from check k0
on), the control task completes from any phase and any oracle indices
within bounded fuel, and its trace ends with exactly one
Motor.safe_stop followed by exactly one Steering.safe_stop, neither
invoked anywhere earlier. -/
theorem cancellation_safe_stop (env : Env) (k0 f c s w : Nat) (ph : Phase)
    (hc : ∀ k, k0 ≤ k → env.cancelAt k = true)
    (hf : k0 - c + 2 ≤ f) :
    (ctrlRun env ph f c s w).2 = true ∧
    (ctrlRun env ph f c s w).1.count Out.safeStopMotor = 1 ∧
    (ctrlRun env ph f c s w).1.count Out.safeStopSteer = 1 ∧
    ∃ p, (ctrlRun env ph f c s w).1 = p ++ [Out.safeStopMotor, Out.safeStopSteer] := by
  have hdone := ctrlRun_completes env k0 hc f ph c s w hf
  obtain ⟨p, hp, hm, hs2⟩ := (ctrlRun_shape env f ph c s w).1 hdone
  refine ⟨hdone, ?_, ?_, ⟨p, hp⟩⟩
  · rw [hp, List.count_append, List.count_eq_zero.mpr hm]
    rfl
  · rw [hp, List.count_append, List.count_eq_zero.mpr hs2]
    rfl

/-- Witness for C2: a cancelled-from-the-start run with fuel 2
completes with the two safe_stop invocations and nothing else. -/
theorem cancellation_safe_stop_witness :
    (ctrlRun envCancelled Phase.outer 2 0 0 0).2 = true ∧
    (ctrlRun envCancelled Phase.outer 2 0 0 0).1.count Out.safeStopMotor = 1 ∧
    (ctrlRun envCancelled Phase.outer 2 0 0 0).1.count Out.safeStopSteer = 1 ∧
    ∃ p, (ctrlRun envCancelled Phase.outer 2 0 0 0).1
      = p ++ [Out.safeStopMotor, Out.safeStopSteer] :=
  cancellation_safe_stop envCancelled 0 2 0 0 0 Phase.outer (fun k hk => rfl) (by omega)

/-- Claim C3: only Update events can reach the actuators — every
set_steer in any control-task trace carries the steer field of some
Update event of the stream, every set_speed is either the dead-man 0
or the speed field of some Update event, and the iteration chunk of an
Insert or Delete event is empty. -/
theorem non_update_events_filtered (env : Env) (ph : Phase) (f c s w : Nat) :
    (∀ st, Out.setSteer st ∈ (ctrlRun env ph f c s w).1 →
      ∃ i sp stOk spOk, env.waitAt i = WaitResult.event Action.update st sp stOk spOk) ∧
    (∀ sp, Out.setSpeed sp ∈ (ctrlRun env ph f c s w).1 →
      sp = 0 ∨ ∃ i st stOk spOk,
        env.waitAt i = WaitResult.event Action.update st sp stOk spOk) ∧
    (∀ a st sp stOk spOk, a ≠ Action.update →
      waitOuts (WaitResult.event a st sp stOk spOk) = []) := by
  refine ⟨(ctrlRun_actuation_origin env f ph c s w).1,
          (ctrlRun_actuation_origin env f ph c s w).2, ?_⟩
  intro a st sp stOk spOk ha
  simp [waitOuts, ha]

/-- Witness for C3: in the accepted-Update environment the trace does
contain a set_steer, and the theorem locates the Update event that
produced it. -/
theorem non_update_events_filtered_witness :
    ∃ i sp stOk spOk, envUpdate.waitAt i = WaitResult.event Action.update 3 sp stOk spOk :=
  (non_update_events_filtered envUpdate Phase.outer 2 0 0 0).1 3 (by decide)

/-- Claim C6: while every live_control attempt fails, the control task
invokes no set_steer and no set_speed, and absent cancellation it logs
one subscription failure per retry, forever (one per unit of fuel),
without completing. -/
theorem subscription_retry_no_actuation (env : Env) (f c s w : Nat)
    (hs : ∀ k, env.subAt k = false) :
    (∀ v, Out.setSteer v ∉ (ctrlRun env Phase.outer f c s w).1) ∧
    (∀ v, Out.setSpeed v ∉ (ctrlRun env Phase.outer f c s w).1) ∧
    ((∀ k, env.cancelAt k = false) →
      ctrlRun env Phase.outer f c s w = (List.replicate f Out.logSubErr, false)) :=
  ⟨(ctrlRun_outage_no_actuation env hs f c s w).1,
   (ctrlRun_outage_no_actuation env hs f c s w).2,
   fun hc => ctrlRun_outage_trace env hs hc f c s w⟩

/-- Witness for C6: three consecutive failed subscription attempts
produce exactly three logged failures and nothing else. -/
theorem subscription_retry_no_actuation_witness :
    ctrlRun envOutage Phase.outer 3 0 0 0 = (List.replicate 3 Out.logSubErr, false) :=
  (subscription_retry_no_actuation envOutage 3 0 0 0 (fun _ => rfl)).2.2 (fun _ => rfl)

end RcTelemetrie

namespace RcTelemetrie

/-- Claim C4 counterexample: the source shutdown sequence for both
interrupt kinds cancels the root token and returns from main without
any await of the control task safe-stop, so it is not the spec-modelled
sequence (cancel root, await safe-stop completion, exit). -/
theorem interrupt_await_counterexample :
    SupOut.awaitControlTask ∉ supervisorShutdown OsSignal.sigint ∧
    SupOut.awaitControlTask ∉ supervisorShutdown OsSignal.ctrlC ∧
    supervisorShutdown OsSignal.sigint ≠ specShutdownSequence OsSignal.sigint ∧
    supervisorShutdown OsSignal.ctrlC ≠ specShutdownSequence OsSignal.ctrlC := by
  decide

/-- Claim C4 as amended: on receipt of SIGINT or Ctrl-C the process
prints a diagnostic and cancels the root cancellation token exactly
once, as its last action before main returns; both interrupt kinds
trigger this identical cancellation, and neither path awaits the
actuators safe-stop. -/
theorem interrupt_cancels_root :
    (supervisorShutdown OsSignal.sigint).count SupOut.cancelRoot = 1 ∧
    (supervisorShutdown OsSignal.ctrlC).count SupOut.cancelRoot = 1 ∧
    (supervisorShutdown OsSignal.sigint).getLast? = some SupOut.cancelRoot ∧
    (supervisorShutdown OsSignal.ctrlC).getLast? = some SupOut.cancelRoot ∧
    SupOut.awaitControlTask ∉ supervisorShutdown OsSignal.sigint ∧
    SupOut.awaitControlTask ∉ supervisorShutdown OsSignal.ctrlC := by
  decide

/-- Claim C5 counterexample: a Motor::new failure at control-loop
startup produces a return from the spawned control task, not a process
panic — unlike an I2C bus failure, which panics the process. -/
theorem actuator_init_fatal_counterexample :
    controlInit false true = InitOutcome.controlTaskExit InitDiag.motorInitErr ∧
    controlInit false true ≠ InitOutcome.processPanic InitDiag.motorInitErr ∧
    controlInit true false ≠ InitOutcome.processPanic InitDiag.steerInitErr ∧
    init_i2c false = InitOutcome.processPanic InitDiag.i2cBusErr := by
  decide

/-- Claim C5 as amended: a failure of Motor::new or Steering::new at
control-loop startup logs its diagnostic and terminates only the
control task (early return from the spawned closure); the process
keeps running without a control loop, whereas HardwareBus
initialization failure and the initial database connection failure
panic the whole process. -/
theorem actuator_init_task_exit :
    controlInit false true = InitOutcome.controlTaskExit InitDiag.motorInitErr ∧
    controlInit false false = InitOutcome.controlTaskExit InitDiag.motorInitErr ∧
    controlInit true false = InitOutcome.controlTaskExit InitDiag.steerInitErr ∧
    controlInit true true = InitOutcome.proceed ∧
    init_i2c false = InitOutcome.processPanic InitDiag.i2cBusErr ∧
    dbConnect false = InitOutcome.processPanic InitDiag.dbConnErr := by
  decide

/-- Claim C9: failure to initialize the I2C bus and failure of the
initial database connection each panic the process with their
diagnostic, while success proceeds. -/
theorem bus_and_db_init_fatal :
    init_i2c false = InitOutcome.processPanic InitDiag.i2cBusErr ∧
    init_i2c true = InitOutcome.proceed ∧
    dbConnect false = InitOutcome.processPanic InitDiag.dbConnErr ∧
    dbConnect true = InitOutcome.proceed := by
  decide

/-- Claim C7 counterexample: an Analog pipeline iteration whose poll
returns None performs no 500 ms pacing delay at all (the sleep sits
inside the if let Some branch), contradicting the claim that every
pipeline paces every iteration regardless of the poll outcome. -/
theorem analog_pacing_counterexample :
    analogIter none true = [] ∧
    PipeOut.sleepMs 500 ∉ analogIter none true := by
  decide

/-- Claim C7 as amended: GPS never sleeps; IMU ends every iteration
with a 50 ms sleep and Magnetometer with a 300 ms sleep, whatever the
poll and append results; Analog ends with a 500 ms sleep exactly in
the iterations whose poll returned Some (a reading or a decode error),
and an iteration whose poll returned None does nothing, without any
delay. -/
theorem pipeline_pacing (i1 : Option Nmea) (i2 : Option ImuData)
    (e : Except Unit AnalogData) (i4 : Option (Except Unit MagData))
    (ok : Bool) (ms : Nat) :
    PipeOut.sleepMs ms ∉ gpsIter i1 ok ∧
    (∃ q, imuIter i2 ok = q ++ [PipeOut.sleepMs 50]) ∧
    (∃ q, magIter i4 ok = q ++ [PipeOut.sleepMs 300]) ∧
    (∃ q, analogIter (some e) ok = q ++ [PipeOut.sleepMs 500]) ∧
    analogIter none ok = [] := by
  refine ⟨?_, ?_, ?_, ?_, rfl⟩
  · cases i1 with
    | none => simp [gpsIter]
    | some m => cases m <;> cases ok <;> simp [gpsIter]
  · cases i2 with
    | none => exact ⟨[], rfl⟩
    | some d =>
        cases ok with
        | false => exact ⟨[PipeOut.storeImu d, PipeOut.logDbErr], rfl⟩
        | true => exact ⟨[PipeOut.storeImu d], rfl⟩
  · cases i4 with
    | none => exact ⟨[], rfl⟩
    | some r =>
        cases r with
        | error u => exact ⟨[], rfl⟩
        | ok d =>
            cases ok with
            | false => exact ⟨[PipeOut.storeMag d, PipeOut.logDbErr], rfl⟩
            | true => exact ⟨[PipeOut.storeMag d], rfl⟩
  · cases e with
    | error u => exact ⟨[], rfl⟩
    | ok d =>
        cases ok with
        | false => exact ⟨[PipeOut.storeAnalog d, PipeOut.logDbErr], rfl⟩
        | true => exact ⟨[PipeOut.storeAnalog d], rfl⟩

/-- Witness for C7 as amended, at concrete iteration inputs. -/
theorem pipeline_pacing_witness :
    PipeOut.sleepMs 50 ∉ gpsIter none true ∧
    analogIter none false = [] :=
  ⟨(pipeline_pacing none none (Except.error ()) none true 50).1,
   (pipeline_pacing none none (Except.error ()) none false 50).2.2.2.2⟩

/-- Claim C8 counterexample: a decode failure from a fallible poll is
not logged — the Analog and Magnetometer loops silently discard the
Err value (if let Ok) and just pace, so the claim that the error is
logged fails at this input (the loop does proceed). -/
theorem decode_failure_not_logged :
    analogIter (some (Except.error ())) true = [PipeOut.sleepMs 500] ∧
    PipeOut.logDbErr ∉ analogIter (some (Except.error ())) true ∧
    magIter (some (Except.error ())) true = [PipeOut.sleepMs 300] := by
  decide

/-- Claim C8 as amended: a single failed append is logged and does not
terminate its pipeline: the iteration ends normally and the run
continues with the next iteration untouched (shown for GPS and IMU);
a single decode failure from a fallible poll is silently discarded —
no log — and the run likewise continues with the next iteration
(shown for Analog and Magnetometer). -/
theorem pipeline_resilience :
    (∀ (pre rest : List (Option Nmea × Bool)) (g : GgaData)
        (x : Option Nmea × Bool),
      pipeRun gpsIter (pre ++ (some (Nmea.gga g), false) :: x :: rest)
        = pipeRun gpsIter pre ++ [PipeOut.storeGga g, PipeOut.logDbErr]
          ++ gpsIter x.1 x.2 ++ pipeRun gpsIter rest) ∧
    (∀ (pre rest : List (Option ImuData × Bool)) (d : ImuData)
        (x : Option ImuData × Bool),
      pipeRun imuIter (pre ++ (some d, false) :: x :: rest)
        = pipeRun imuIter pre
          ++ [PipeOut.storeImu d, PipeOut.logDbErr, PipeOut.sleepMs 50]
          ++ imuIter x.1 x.2 ++ pipeRun imuIter rest) ∧
    (∀ (pre rest : List (Option (Except Unit AnalogData) × Bool))
        (x : Option (Except Unit AnalogData) × Bool) (ok : Bool),
      pipeRun analogIter (pre ++ (some (Except.error ()), ok) :: x :: rest)
        = pipeRun analogIter pre ++ [PipeOut.sleepMs 500]
          ++ analogIter x.1 x.2 ++ pipeRun analogIter rest ∧
      PipeOut.logDbErr ∉ analogIter (some (Except.error ())) ok) ∧
    (∀ (pre rest : List (Option (Except Unit MagData) × Bool))
        (x : Option (Except Unit MagData) × Bool) (ok : Bool),
      pipeRun magIter (pre ++ (some (Except.error ()), ok) :: x :: rest)
        = pipeRun magIter pre ++ [PipeOut.sleepMs 300]
          ++ magIter x.1 x.2 ++ pipeRun magIter rest ∧
      PipeOut.logDbErr ∉ magIter (some (Except.error ())) ok) := by
  refine ⟨?_, ?_, ?_, ?_⟩
  · intro pre rest g x
    obtain ⟨xa, xok⟩ := x
    rw [pipeRun_append]
    simp [pipeRun, gpsIter]
  · intro pre rest d x
    obtain ⟨xa, xok⟩ := x
    rw [pipeRun_append]
    simp [pipeRun, imuIter]
  · intro pre rest x ok
    obtain ⟨xa, xok⟩ := x
    constructor
    · rw [pipeRun_append]
      simp [pipeRun, analogIter]
    · simp [analogIter]
  · intro pre rest x ok
    obtain ⟨xa, xok⟩ := x
    constructor
    · rw [pipeRun_append]
      simp [pipeRun, magIter]
    · simp [magIter]

/-- Witness for C8 as amended, at a concrete one-failure run. -/
theorem pipeline_resilience_witness :
    pipeRun imuIter ([] ++ (some ⟨(0, 0, 0), 0⟩, false) :: (none, true) :: [])
      = pipeRun imuIter []
        ++ [PipeOut.storeImu ⟨(0, 0, 0), 0⟩, PipeOut.logDbErr, PipeOut.sleepMs 50]
        ++ imuIter none true ++ pipeRun imuIter [] :=
  pipeline_resilience.2.1 [] [] ⟨(0, 0, 0), 0⟩ (none, true)

/-- Claim C10: the GPS pipeline forwards a Gga fix through
send_gps_gga and a Vtg message through send_gps_vtg (logging a failed
append), and every other successfully parsed NMEA message kind — and a
poll yielding nothing — produces no store write and no output at all. -/
theorem gps_forwards_only_gga_vtg :
    (∀ (g : GgaData) (ok : Bool),
      gpsIter (some (Nmea.gga g)) ok
        = PipeOut.storeGga g :: (if ok then [] else [PipeOut.logDbErr])) ∧
    (∀ (v : VtgData) (ok : Bool),
      gpsIter (some (Nmea.vtg v)) ok
        = PipeOut.storeVtg v :: (if ok then [] else [PipeOut.logDbErr])) ∧
    (∀ (m : Nmea) (ok : Bool), (∀ g, m ≠ Nmea.gga g) → (∀ v, m ≠ Nmea.vtg v) →
      gpsIter (some m) ok = []) ∧
    (∀ ok, gpsIter none ok = []) := by
  refine ⟨fun g ok => rfl, fun v ok => rfl, ?_, fun ok => rfl⟩
  intro m ok hg hv
  cases m with
  | gga g => exact absurd rfl (hg g)
  | vtg v => exact absurd rfl (hv v)
  | rmc => rfl
  | gsa => rfl
  | gsv => rfl
  | gll => rfl
  | otherMsg => rfl

/-- Witness for C10: an Rmc message is silently discarded. -/
theorem gps_forwards_only_gga_vtg_witness :
    gpsIter (some Nmea.rmc) true = [] :=
  gps_forwards_only_gga_vtg.2.2.1 Nmea.rmc true
    (fun _ h => Nmea.noConfusion h) (fun _ h => Nmea.noConfusion h)

end RcTelemetrie
